import Mathlib

/-!
Verification of the Driver-Status-Detection decision engine.

Shallow embedding of the repository's Python decision code into Lean 4:
floats are modelled as rationals, deques as lists (newest element at the
end), wall-clock time as an explicit rational timestamp argument, and
Python dictionaries of optional diagnostics as structures of `Option`
fields.  Each embedded definition mirrors one Python function or method
and keeps its name where Lean allows.
-/

set_option maxHeartbeats 1000000

namespace DriverStatus

/-- `listPrefixOf pat l` holds when `pat` is a prefix of `l`. -/
def listPrefixOf : List Char → List Char → Bool
  | [], _ => true
  | _ :: _, [] => false
  | a :: as, b :: bs => a == b && listPrefixOf as bs

/-- `listInfixOf pat l` holds when `pat` occurs contiguously in `l`. -/
def listInfixOf (pat : List Char) : List Char → Bool
  | [] => pat.isEmpty
  | c :: rest => listPrefixOf pat (c :: rest) || listInfixOf pat rest

/-- Python `pat in s` substring test on strings, modelled on character
lists. -/
def strContains (s pat : String) : Bool :=
  listInfixOf pat.toList s.toList

/-- Diagnostics dictionary `drowsiness_info` passed to
`StatusAggregator.aggregate` (src/src/core/status_aggregator.py):
each key may be absent or `None`, modelled as an `Option` field. -/
structure DrowsinessInfo where
  drowsy_score : Option ℚ := none
  perclos : Option ℚ := none
  score_drowsy : Option Bool := none
  eye_episode_active : Option Bool := none
deriving Repr, DecidableEq

/-- Diagnostics dictionary `distraction_info` passed to
`StatusAggregator.aggregate`. -/
structure DistractionInfo where
  duration : Option ℚ := none
  alert_detail : Option String := none
  severity : Option String := none
deriving Repr, DecidableEq

/-- `FinalStatus` dataclass of src/src/core/status_aggregator.py. -/
structure FinalStatus where
  label : String
  color_bgr : ℤ × ℤ × ℤ
  drowsy_score : Option ℚ := none
  perclos : Option ℚ := none
  score_drowsy : Option Bool := none
  eye_episode_active : Option Bool := none
  should_log_distraction : Bool := false
  distraction_event_name : Option String := none
  distraction_duration_sec : ℚ := 0
  distraction_alert_detail : Option String := none
  distraction_severity : Option String := none
deriving Repr, DecidableEq

/-- The label/color/detail/severity table of the distraction branch of
`StatusAggregator.aggregate` (the `if`/`elif` chain over `reason`). -/
def distractionMapping (reason : String) : String × (ℤ × ℤ × ℤ) × String × String :=
  if strContains reason "BOTH HANDS" then
    ("BOTH HANDS VISIBLE!", (0, 0, 255), "Both Hands Off Wheel", "High")
  else if strContains reason "ONE HAND" then
    ("ONE HAND VISIBLE", (0, 165, 255), "One Hand Off Wheel", "Medium")
  else if strContains reason "ASIDE" then
    ("LOOKING ASIDE", (0, 255, 255), "Looking Away from Road", "Medium")
  else if strContains reason "DOWN" then
    ("LOOKING DOWN", (0, 255, 255), "Looking Down at Device", "Medium")
  else if strContains reason "UP" then
    ("LOOKING UP", (0, 255, 255), "Looking Up Away from Road", "Medium")
  else
    ("DISTRACTED", (0, 0, 255), "Driver Distracted", "Medium")

/-- `StatusAggregator.aggregate` of src/src/core/status_aggregator.py.
`distraction_info = none` models both a `None` and an empty (falsy)
dictionary. -/
def StatusAggregator.aggregate
    (drowsy_status : String) (drowsy_color_bgr : ℤ × ℤ × ℤ)
    (is_distracted : Bool) (distraction_type : String)
    (should_log_distraction : Bool)
    (distraction_info : Option DistractionInfo)
    (drowsiness_info : Option DrowsinessInfo) : FinalStatus :=
  if strContains drowsy_status "DROWSY" || strContains drowsy_status "YAWN"
      || strContains drowsy_status "SLEEP" then
    let info := drowsiness_info.getD {}
    { label := drowsy_status
      color_bgr := drowsy_color_bgr
      drowsy_score := info.drowsy_score
      perclos := info.perclos
      score_drowsy := info.score_drowsy
      eye_episode_active := info.eye_episode_active }
  else if is_distracted then
    let reason := if distraction_type = "" then "DISTRACTED" else distraction_type
    let m := distractionMapping reason
    let duration : ℚ :=
      match distraction_info with
      | some di => di.duration.getD 0
      | none => 0
    { label := m.1
      color_bgr := m.2.1
      should_log_distraction := should_log_distraction && distraction_info.isSome
      distraction_event_name := some ("DISTRACTION_" ++ reason)
      distraction_duration_sec := duration
      distraction_alert_detail :=
        some (match distraction_info with
              | some di => di.alert_detail.getD m.2.2.1
              | none => m.2.2.1)
      distraction_severity :=
        some (match distraction_info with
              | some di => di.severity.getD m.2.2.2
              | none => m.2.2.2) }
  else
    { label := "NORMAL", color_bgr := (0, 255, 0) }

/-- The labels the distraction branch of the aggregator can produce. -/
def distractionLabels : List String :=
  ["BOTH HANDS VISIBLE!", "ONE HAND VISIBLE", "LOOKING ASIDE",
   "LOOKING DOWN", "LOOKING UP", "DISTRACTED"]

/-- Append to a `collections.deque` with a maximum length, modelled as a
list whose newest element is last: append, then drop from the front until
at most `cap` elements remain. -/
def pushCap {α : Type} (cap : Nat) (buf : List α) (x : α) : List α :=
  (buf ++ [x]).drop (buf.length + 1 - cap)

/-- `EAR_CONSEC_FRAMES` of src/archive/original_main.py. -/
def EAR_CONSEC_FRAMES : Nat := 30

/-- The module-level `COUNTER`/`DROWSY` state of
src/archive/original_main.py. -/
structure DrowsyCounterState where
  counter : Nat
  drowsy : Bool
deriving Repr, DecidableEq

def drowsyInit : DrowsyCounterState := { counter := 0, drowsy := false }

/-- One frame of the eye-closure logic of src/archive/original_main.py
(lines 313-328): a below-threshold smoothed EAR increments `COUNTER` and
asserts `DROWSY` once `COUNTER >= EAR_CONSEC_FRAMES`; an at-or-above
threshold frame resets `COUNTER` to 0 and de-asserts `DROWSY`. -/
def drowsyStep (threshold : ℚ) (s : DrowsyCounterState) (current_ear : ℚ) :
    DrowsyCounterState :=
  if current_ear < threshold then
    let c := s.counter + 1
    { counter := c, drowsy := if EAR_CONSEC_FRAMES ≤ c then true else s.drowsy }
  else
    { counter := 0, drowsy := false }

/-- Fold the per-frame eye-closure logic over an EAR sequence from the
initial state. -/
def runDrowsy (threshold : ℚ) (ears : List ℚ) : DrowsyCounterState :=
  ears.foldl (drowsyStep threshold) drowsyInit

/-- The example EAR sequence `[0.30]*10 + [0.15]*40 + [0.30]*5`. -/
def exampleEARs : List ℚ :=
  List.replicate 10 (3/10) ++ List.replicate 40 (3/20) ++ List.replicate 5 (3/10)

/-- `UserProfile` as seen by the recognition components: the stable user
id and the stored (unit-normalized) face encoding. -/
structure UserProfileFR where
  user_id : Nat
  face_encoding : List ℚ
deriving Repr, DecidableEq

/-- Dot product of two encodings: one entry of `self._mat @ q`. -/
def dot (a b : List ℚ) : ℚ := (List.zipWith (fun x y => x * y) a b).sum

/-- Helper for `argmaxIdx`: `i` is the position of the head of the
remaining list, `bi`/`bv` the index and value of the best entry seen so
far; a later entry replaces the best only when strictly greater, so ties
keep the lowest index, as `np.argmax` does. -/
def argmaxAux (i bi : Nat) (bv : ℚ) : List ℚ → Nat
  | [] => bi
  | x :: xs => if bv < x then argmaxAux (i + 1) i x xs else argmaxAux (i + 1) bi bv xs

/-- Index of the first maximal entry of a list, `int(np.argmax(sims))`. -/
def argmaxIdx : List ℚ → Nat
  | [] => 0
  | x :: xs => argmaxAux 1 0 x xs

/-- Index of the first minimal entry of a list, `int(np.argmin(dists))`,
via `argmaxIdx` on the negated list. -/
def argminIdx (l : List ℚ) : Nat := argmaxIdx (l.map (fun x => -x))

/-- `SimilarityMatcher.best_match` of
src/src/utils/face/similarity_matcher.py.  The rows of `self._mat` are the
stored encodings as normalized by `build_matrix` and the query `q` stands
for `encoding / (np.linalg.norm(encoding) + 1e-8)`; those square-root
normalizations are positive scalings applied before this function runs and
are modelled as already performed.  When no users exist (`self._mat` is
`None`), returns `(None, -1.0)`. -/
def SimilarityMatcher.best_match (users : List UserProfileFR) (q : List ℚ) :
    Option UserProfileFR × ℚ :=
  match users with
  | [] => (none, -1)
  | _ :: _ =>
    let sims := users.map (fun u => dot u.face_encoding q)
    let i := argmaxIdx sims
    (some (users.getD i { user_id := 0, face_encoding := [] }), sims.getD i 0)

/-- Modelled from the spec: `best_match` of the module
src/src/face_recognition/similarity_matcher.py, which is not under src/;
it is called with a `threshold` keyword from
src/src/face_recognition/user_manager.py.  Per spec section 4.3 it computes
a distance (Euclidean, configured by `distance_metric="euclidean"`)
against every stored profile and returns the arg-min candidate with its
distance; the candidate counts as a match only when its distance is below
the threshold.  The metric is modelled as an abstract distance function
`d`. -/
def best_match_thresholded (d : List ℚ → List ℚ → ℚ) (enc : List ℚ)
    (users : List UserProfileFR) (threshold : ℚ) : Option UserProfileFR × ℚ :=
  match users with
  | [] => (none, 0)
  | _ :: _ =>
    let dists := users.map (fun u => d enc u.face_encoding)
    let i := argminIdx dists
    let dist := dists.getD i 0
    if dist < threshold then
      (some (users.getD i { user_id := 0, face_encoding := [] }), dist)
    else
      (none, dist)

/-- Configuration slice of `UserManager.__init__`
(src/src/face_recognition/user_manager.py) read by `find_best_match`. -/
structure UMConfig where
  recognition_threshold : ℚ
  multi_frame_validation : Bool
  min_consistent_frames : Nat
deriving Repr, DecidableEq

/-- Python `max(set(ids), key=ids.count)`: the most frequent value.  The
Python tie order (set iteration order) is unspecified; it is modelled with
`List.argmax` on the count, which is unobservable because every use sits
behind a 60%-majority test under which the most frequent value is
unique. -/
def mostCommon (l : List Nat) : Option Nat := l.argmax (fun x => l.count x)

/-- `UserManager.find_best_match` of
src/src/face_recognition/user_manager.py, restricted to the state it reads
and writes: the `_recent_matches` deque of capacity
`min_consistent_frames` (newest entry last).  The per-frame input is
`none` for an early return (no users loaded, or no face encoding
extracted), and `some (cand, dist)` for the result of
`self.matcher.best_match(encoding, users, threshold)`.  Statistics,
rate-limited logging and `update_last_seen` carry no decision content and
are omitted.  A full buffer with `min_consistent_frames = 0` would raise
in Python (`max` of an empty set); it is modelled as a `none` result. -/
def find_best_match (cfg : UMConfig) (buf : List (Nat × ℚ))
    (frame : Option (Option Nat × ℚ)) : Option Nat × List (Nat × ℚ) :=
  match frame with
  | none => (none, buf)
  | some (none, _) => (none, if cfg.multi_frame_validation then [] else buf)
  | some (some uid, dist) =>
    if cfg.recognition_threshold ≤ dist then
      (none, if cfg.multi_frame_validation then [] else buf)
    else if cfg.multi_frame_validation then
      let buf1 := pushCap cfg.min_consistent_frames buf (uid, dist)
      if buf1.length < cfg.min_consistent_frames then
        (none, buf1)
      else
        let ids := buf1.map Prod.fst
        match mostCommon ids with
        | none => (none, buf1)
        | some mc =>
          if (ids.count mc : ℚ) < (cfg.min_consistent_frames : ℚ) * (3/5) then
            (none, buf1)
          else if mc ≠ uid then
            (none, buf1)
          else
            (some uid, buf1)
    else
      (some uid, buf)

/-- The `_recent_matches` deque after a sequence of `find_best_match`
calls, starting from the freshly initialized (empty) deque. -/
def runMatches (cfg : UMConfig) (frames : List (Option (Option Nat × ℚ))) :
    List (Nat × ℚ) :=
  frames.foldl (fun b f => (find_best_match cfg b f).2) []

/-- `UserManager.register_new_user` of
src/src/face_recognition/user_manager.py, restricted to its decision
content: `enc` is the final (averaged over frames, then re-normalized)
encoding, whose square-root normalization happens before this logic;
`0.8` is written `4/5`.  A found duplicate is returned with the cache
unchanged; otherwise a new profile is appended to the cache (database
writes and the matrix rebuild are the persistence collaborator's side). -/
def register_new_user (d : List ℚ → List ℚ → ℚ) (recognition_threshold : ℚ)
    (users : List UserProfileFR) (enc : List ℚ) (ear_threshold : Option ℚ)
    (next_id : Nat) : Option UserProfileFR × List UserProfileFR :=
  match ear_threshold with
  | none => (none, users)
  | some _ =>
    let registration_threshold := recognition_threshold * (4/5)
    match (best_match_thresholded d enc users registration_threshold).1 with
    | some dup => (some dup, users)
    | none =>
      let new_user : UserProfileFR := { user_id := next_id, face_encoding := enc }
      (some new_user, users ++ [new_user])

/-- The similarity row `self._mat @ q` computed by
`SimilarityMatcher.best_match`. -/
def simsOf (users : List UserProfileFR) (q : List ℚ) : List ℚ :=
  users.map (fun u => dot u.face_encoding q)

/-! Class constants of `DistractionDetector`
(src/src/detectors/distraction.py). -/

def YAW_THRESH : ℚ := 45
def PITCH_DOWN_THRESH : ℚ := 25
def PITCH_UP_THRESH : ℚ := 25
def ROLL_THRESH : ℚ := 35
def TIME_THRESH : ℚ := 5/2
def STABILIZATION_FRAMES : Nat := 5

/-- Mutable state of `DistractionDetector` read and written by `analyze`:
the vote deque `self.history` (capacity `STABILIZATION_FRAMES`, newest
vote last), `self.start_time` and `self.is_distracted`.  The frame and
event counters carry no decision content and are omitted. -/
structure DistractionState where
  history : List Bool
  start_time : Option ℚ
  is_distracted : Bool
deriving Repr, DecidableEq

def distractionInit : DistractionState :=
  { history := [], start_time := none, is_distracted := false }

/-- `DistractionDetector._is_valid_pose`: angles must be under 90 degrees
in magnitude and not all exactly zero (an all-zero pose is a tracking
failure). -/
def is_valid_pose (pitch yaw roll : ℚ) : Bool :=
  decide (|pitch| < 90) && decide (|yaw| < 90) && decide (|roll| < 90)
    && !(decide (pitch = 0) && decide (yaw = 0) && decide (roll = 0))

/-- The per-frame bad-angle vote computed by `DistractionDetector.analyze`
from the deviations against the expected baseline, or a hand in the phone
zone.  `holding_phone` stands for `self.is_holding_phone`, which
`detect_hand_distractions` sets from the hand landmarks before the vote is
taken. -/
def is_bad_angle (expected_pitch expected_yaw expected_roll : ℚ)
    (pitch yaw roll : ℚ) (holding_phone : Bool) : Bool :=
  let delta_pitch := pitch - expected_pitch
  let delta_yaw := |yaw - expected_yaw|
  let delta_roll := |roll - expected_roll|
  decide (YAW_THRESH < delta_yaw) || decide (PITCH_DOWN_THRESH < delta_pitch)
    || decide (delta_pitch < -PITCH_UP_THRESH) || decide (ROLL_THRESH < delta_roll)
    || holding_phone

/-- `DistractionDetector.analyze` of src/src/detectors/distraction.py.
Wall-clock `time.time()` is the explicit argument `now`; the two calls the
source can make within one invocation are modelled as the same instant
(their difference is microseconds against a multi-second
`TIME_THRESH`).  Returns the new state and the returned pair
`(is_distracted, should_log)`. -/
def analyze (expected_pitch expected_yaw expected_roll : ℚ)
    (s : DistractionState) (pitch yaw roll : ℚ) (holding_phone : Bool)
    (now : ℚ) : DistractionState × Bool × Bool :=
  if !(is_valid_pose pitch yaw roll) then
    ({ s with history := pushCap STABILIZATION_FRAMES s.history false },
      false, false)
  else
    let h1 := pushCap STABILIZATION_FRAMES s.history
      (is_bad_angle expected_pitch expected_yaw expected_roll pitch yaw roll
        holding_phone)
    if 3 ≤ h1.count true then
      let st := s.start_time.getD now
      let elapsed := now - st
      if TIME_THRESH < elapsed then
        if !s.is_distracted then
          ({ history := h1, start_time := some st, is_distracted := true },
            true, true)
        else
          ({ history := h1, start_time := some st,
             is_distracted := s.is_distracted }, true, false)
      else
        ({ history := h1, start_time := some st,
           is_distracted := s.is_distracted }, true, false)
    else
      ({ history := h1, start_time := none, is_distracted := false },
        false, false)

/-- One camera frame fed to `analyze`: head-pose angles, the phone-zone
hand flag, and the wall-clock instant of the call. -/
structure PoseFrame where
  pitch : ℚ
  yaw : ℚ
  roll : ℚ
  holding_phone : Bool
  now : ℚ
deriving Repr, DecidableEq

/-- Fold `analyze` over a frame sequence (camera offsets zero, the
constructor defaults), keeping the detector state. -/
def runAnalyze (s : DistractionState) (frames : List PoseFrame) :
    DistractionState :=
  frames.foldl
    (fun st f => (analyze 0 0 0 st f.pitch f.yaw f.roll f.holding_phone f.now).1)
    s

/-- A trace for the distraction detector: three bad-yaw frames make the
vote stable at t = 1; the episode stays under `TIME_THRESH`; two
invalid-pose frames then drop the vote count to 2 without touching the
timer; a final bad-yaw frame at t = 4 makes the votes stable again. -/
def distractionTrace : List PoseFrame :=
  [{ pitch := 0, yaw := 50, roll := 0, holding_phone := false, now := 0 },
   { pitch := 0, yaw := 50, roll := 0, holding_phone := false, now := 1/2 },
   { pitch := 0, yaw := 50, roll := 0, holding_phone := false, now := 1 },
   { pitch := 1, yaw := 0, roll := 0, holding_phone := false, now := 3/2 },
   { pitch := 0, yaw := 50, roll := 0, holding_phone := false, now := 2 },
   { pitch := 0, yaw := 50, roll := 0, holding_phone := false, now := 5/2 },
   { pitch := 0, yaw := 0, roll := 0, holding_phone := false, now := 3 },
   { pitch := 0, yaw := 0, roll := 0, holding_phone := false, now := 7/2 }]

/-! Class constants of `EARCalibrator`
(src/src/detectors/ear_calibration/main_logic.py) and
`DROWSINESS_FACTOR` of src/src/utils/ear/constants.py. -/

def CALIBRATION_DURATION_S : ℚ := 10
def MIN_VALID_SAMPLES : Nat := 20
def EAR_BOUNDS_LO : ℚ := 6/100
def EAR_BOUNDS_HI : ℚ := 60/100
def DROWSINESS_FACTOR : ℚ := 8/10

/-- Modelled from the spec: the per-frame sample filter of the calibration
loop; the body of `calibrate`
(src/src/detectors/ear_calibration/calibration.py) is not under src/.
Per spec section 4.2, a frame contributes a sample when a face was
detected (`some`) and the smoothed EAR lies within the plausible bounds
`EAR_BOUNDS`; other frames are skipped. -/
def validSamples (frames : List (Option ℚ)) : List ℚ :=
  frames.filterMap (fun f =>
    match f with
    | none => none
    | some x =>
      if EAR_BOUNDS_LO ≤ x ∧ x ≤ EAR_BOUNDS_HI then some x else none)

/-- Modelled from the spec: the completion step of a calibration session
(`calibrate` of src/src/detectors/ear_calibration/calibration.py, not
under src/).  Per spec section 4.2, once the fixed collection window has
elapsed with at least `MIN_VALID_SAMPLES` valid samples the session
succeeds and the derived threshold is `mean(samples) × DROWSINESS_FACTOR`,
exactly as the archived implementation computes it
(src/archive/original_main.py lines 290-300); otherwise no threshold is
produced. -/
def calibrationResult (elapsed : ℚ) (samples : List ℚ) : Option ℚ :=
  if CALIBRATION_DURATION_S ≤ elapsed ∧ MIN_VALID_SAMPLES ≤ samples.length then
    some ((samples.sum / (samples.length : ℚ)) * DROWSINESS_FACTOR)
  else
    none

/-- A whole calibration session over its frame sequence. -/
def runCalibration (elapsed : ℚ) (frames : List (Option ℚ)) : Option ℚ :=
  calibrationResult elapsed (validSamples frames)

/-- `RollingAverage` of src/src/utils/ui/metrics_tracker.py: the capacity
`buffer_size = max(1, int(target_fps * duration_sec))` fixed at
construction, the deque contents (newest value last), and the running
sum. -/
structure RollingAverage where
  capacity : Nat
  buffer : List ℚ
  current_sum : ℚ
deriving Repr, DecidableEq

def RollingAverage.init (capacity : Nat) : RollingAverage :=
  { capacity := capacity, buffer := [], current_sum := 0 }

/-- `RollingAverage.get_average`. -/
def RollingAverage.get_average (s : RollingAverage) : ℚ :=
  if s.buffer = [] then 0 else s.current_sum / (s.buffer.length : ℚ)

/-- `RollingAverage.update`: a `None` value returns the current average
and leaves the state unchanged; otherwise the oldest value is subtracted
from the running sum when the buffer is full, the new value is appended
(evicting the oldest) and added, and the new average is returned. -/
def RollingAverage.update (s : RollingAverage) (value : Option ℚ) :
    RollingAverage × ℚ :=
  match value with
  | none => (s, s.get_average)
  | some v =>
    let sum1 :=
      if s.buffer.length = s.capacity then s.current_sum - s.buffer.headD 0
      else s.current_sum
    let buf1 := pushCap s.capacity s.buffer v
    let sum2 := sum1 + v
    ({ s with buffer := buf1, current_sum := sum2 },
      sum2 / (buf1.length : ℚ))

/-- Feed a sequence of (non-`None`) values through `update` from a fresh
`RollingAverage`. -/
def runRolling (capacity : Nat) (values : List ℚ) : RollingAverage :=
  values.foldl (fun s v => (s.update (some v)).1) (RollingAverage.init capacity)

/-- A 2-D landmark point. -/
abbrev Point : Type := ℚ × ℚ

/-- `EAR.calculate` of src/src/calibration/ratios.py.  `math.dist` (the
Euclidean plane distance, a nonnegative value involving a square root) is
modelled as an abstract distance function `d`; the point selection, the
`c < 1e-6` guard and the quotient are from the source. -/
def EAR.calculate (d : Point → Point → ℚ) (landmarks : List Point) : ℚ :=
  let a := d (landmarks.getD 1 (0, 0)) (landmarks.getD 5 (0, 0))
  let b := d (landmarks.getD 2 (0, 0)) (landmarks.getD 4 (0, 0))
  let c := d (landmarks.getD 0 (0, 0)) (landmarks.getD 3 (0, 0))
  if c < 1/1000000 then 0 else (a + b) / (2 * c)

/-- `MAR.calculate` of src/src/calibration/ratios.py: its body is
identical to `EAR.calculate`. -/
def MAR.calculate (d : Point → Point → ℚ) (landmarks : List Point) : ℚ :=
  let a := d (landmarks.getD 1 (0, 0)) (landmarks.getD 5 (0, 0))
  let b := d (landmarks.getD 2 (0, 0)) (landmarks.getD 4 (0, 0))
  let c := d (landmarks.getD 0 (0, 0)) (landmarks.getD 3 (0, 0))
  if c < 1/1000000 then 0 else (a + b) / (2 * c)

end DriverStatus

namespace DriverStatus

theorem distractionMapping_label_mem (reason : String) :
    (distractionMapping reason).1 ∈ distractionLabels := by
  unfold distractionMapping distractionLabels
  repeat' split
  all_goals simp

/-- C1: if the drowsiness status contains "DROWSY", "YAWN" or "SLEEP",
`StatusAggregator.aggregate` returns a `FinalStatus` labelled exactly with
that drowsiness status and carrying the drowsiness diagnostics, regardless
of the distraction inputs; only when no drowsiness label matches and
`is_distracted` is true is a distraction label returned; otherwise the
label is "NORMAL". -/
theorem statusAggregator_priority
    (drowsy_status : String) (col : ℤ × ℤ × ℤ)
    (is_distracted : Bool) (distraction_type : String)
    (should_log_distraction : Bool)
    (di : Option DistractionInfo) (dri : Option DrowsinessInfo) :
    ((strContains drowsy_status "DROWSY" || strContains drowsy_status "YAWN"
        || strContains drowsy_status "SLEEP") = true →
      (StatusAggregator.aggregate drowsy_status col is_distracted
          distraction_type should_log_distraction di dri).label = drowsy_status ∧
      (StatusAggregator.aggregate drowsy_status col is_distracted
          distraction_type should_log_distraction di dri).drowsy_score
            = (dri.getD {}).drowsy_score ∧
      (StatusAggregator.aggregate drowsy_status col is_distracted
          distraction_type should_log_distraction di dri).perclos
            = (dri.getD {}).perclos ∧
      (StatusAggregator.aggregate drowsy_status col is_distracted
          distraction_type should_log_distraction di dri).score_drowsy
            = (dri.getD {}).score_drowsy ∧
      (StatusAggregator.aggregate drowsy_status col is_distracted
          distraction_type should_log_distraction di dri).eye_episode_active
            = (dri.getD {}).eye_episode_active) ∧
    ((strContains drowsy_status "DROWSY" || strContains drowsy_status "YAWN"
        || strContains drowsy_status "SLEEP") = false →
      is_distracted = true →
      (StatusAggregator.aggregate drowsy_status col is_distracted
          distraction_type should_log_distraction di dri).label
        ∈ distractionLabels) ∧
    ((strContains drowsy_status "DROWSY" || strContains drowsy_status "YAWN"
        || strContains drowsy_status "SLEEP") = false →
      is_distracted = false →
      (StatusAggregator.aggregate drowsy_status col is_distracted
          distraction_type should_log_distraction di dri).label = "NORMAL") := by
  refine ⟨?_, ?_, ?_⟩
  · intro h
    simp [StatusAggregator.aggregate, h]
  · intro h hd
    simp only [StatusAggregator.aggregate, h, hd, Bool.false_eq_true, if_false, if_true]
    exact distractionMapping_label_mem _
  · intro h hd
    simp [StatusAggregator.aggregate, h, hd]

/-- Witness for C1 at concrete inputs: a drowsy status "DROWSY" wins over
simultaneous distraction, and with "NORMAL" status plus distraction a
distraction label results. -/
theorem statusAggregator_priority_witness :
    (strContains "DROWSY" "DROWSY" || strContains "DROWSY" "YAWN"
        || strContains "DROWSY" "SLEEP") = true ∧
    (StatusAggregator.aggregate "DROWSY" (0, 0, 255) true "LOOKING ASIDE"
        true none none).label = "DROWSY" := by
  refine ⟨by decide, ?_⟩
  exact (statusAggregator_priority "DROWSY" (0, 0, 255) true "LOOKING ASIDE"
    true none none).1 (by decide) |>.1

theorem runDrowsy_spec (threshold : ℚ) (l : List ℚ) :
    (runDrowsy threshold l).counter
      = (l.reverse.takeWhile (fun y => decide (y < threshold))).length ∧
    (runDrowsy threshold l).drowsy
      = decide (EAR_CONSEC_FRAMES
          ≤ (l.reverse.takeWhile (fun y => decide (y < threshold))).length) := by
  induction l using List.reverseRecOn with
  | nil => exact ⟨rfl, rfl⟩
  | append_singleton l x ih =>
    obtain ⟨hc, hd⟩ := ih
    have hrun : runDrowsy threshold (l ++ [x])
        = drowsyStep threshold (runDrowsy threshold l) x := by
      simp [runDrowsy, List.foldl_append]
    by_cases hx : x < threshold
    · have ht : ((l ++ [x]).reverse.takeWhile (fun y => decide (y < threshold)))
          = x :: (l.reverse.takeWhile (fun y => decide (y < threshold))) := by
        simp [List.reverse_append, List.takeWhile_cons, hx]
      rw [hrun, drowsyStep, if_pos hx, ht]
      refine ⟨by simp [hc], ?_⟩
      simp only [List.length_cons, hc, hd]
      by_cases h30 : EAR_CONSEC_FRAMES
          ≤ (l.reverse.takeWhile (fun y => decide (y < threshold))).length + 1
      · simp [h30]
      · have h' : ¬ EAR_CONSEC_FRAMES
            ≤ (l.reverse.takeWhile (fun y => decide (y < threshold))).length := by
          omega
        simp [h30, h']
    · have ht : ((l ++ [x]).reverse.takeWhile (fun y => decide (y < threshold)))
          = [] := by
        simp [List.reverse_append, List.takeWhile_cons, hx]
      rw [hrun, drowsyStep, if_neg hx, ht]
      exact ⟨rfl, rfl⟩

/-- C2 counterexample: running the eye-closure counter on the EAR sequence
`[0.30]*10 + [0.15]*40 + [0.30]*5` with threshold 0.22 and
`EAR_CONSEC_FRAMES = 30`, the status first becomes DROWSY after 40 frames,
but after 50 frames it is STILL DROWSY (frame 50 is the last
below-threshold frame); it first reverts to NORMAL after 51 frames.  So no
single frame-numbering convention makes both "becomes DROWSY at frame 40"
and "reverts to NORMAL at frame 50" true. -/
theorem eyeClosure_frame50_cex :
    (runDrowsy (11/50) (exampleEARs.take 39)).drowsy = false ∧
    (runDrowsy (11/50) (exampleEARs.take 40)).drowsy = true ∧
    (runDrowsy (11/50) (exampleEARs.take 50)).drowsy = true ∧
    (runDrowsy (11/50) (exampleEARs.take 51)).drowsy = false := by
  refine ⟨?_, ?_, ?_, ?_⟩ <;>
    norm_num [runDrowsy, exampleEARs, drowsyStep, EAR_CONSEC_FRAMES,
      List.replicate, drowsyInit]

/-- C2 amended: the eye-closure tracker asserts DROWSY exactly when the
count of consecutive below-threshold frames reaches `EAR_CONSEC_FRAMES`
(the counter equals the length of the maximal all-below suffix and DROWSY
holds exactly when it is at least 30); any frame at or above threshold
resets the state outright; on the example sequence with threshold 0.22 the
status becomes DROWSY at frame 40 and reverts to NORMAL at frame 51
(counting processed frames). -/
theorem eyeClosure_counter_spec (threshold : ℚ) (l : List ℚ)
    (s : DrowsyCounterState) (ear : ℚ) :
    ((runDrowsy threshold l).counter
        = (l.reverse.takeWhile (fun y => decide (y < threshold))).length ∧
      (runDrowsy threshold l).drowsy
        = decide (EAR_CONSEC_FRAMES
            ≤ (l.reverse.takeWhile (fun y => decide (y < threshold))).length)) ∧
    (threshold ≤ ear → drowsyStep threshold s ear = drowsyInit) ∧
    ((runDrowsy (11/50) (exampleEARs.take 39)).drowsy = false ∧
      (runDrowsy (11/50) (exampleEARs.take 40)).drowsy = true ∧
      (runDrowsy (11/50) (exampleEARs.take 51)).drowsy = false) := by
  refine ⟨runDrowsy_spec threshold l, ?_, ?_, ?_, ?_⟩
  · intro h
    rw [drowsyStep, if_neg (not_lt.mpr h)]
    rfl
  all_goals
    norm_num [runDrowsy, exampleEARs, drowsyStep, EAR_CONSEC_FRAMES,
      List.replicate, drowsyInit]

/-- Witness for C2 amended at concrete inputs: with threshold 0.22 an EAR
of 0.30 resets the state. -/
theorem argmaxAux_spec (xs : List ℚ) : ∀ (i bi : Nat) (bv : ℚ),
    (argmaxAux i bi bv xs = bi ∧ ∀ j, j < xs.length → xs.getD j 0 ≤ bv)
    ∨ (∃ k, k < xs.length ∧ argmaxAux i bi bv xs = i + k
        ∧ bv < xs.getD k 0
        ∧ (∀ j, j < xs.length → xs.getD j 0 ≤ xs.getD k 0)
        ∧ (∀ j, j < k → xs.getD j 0 < xs.getD k 0)) := by
  induction xs with
  | nil =>
    intro i bi bv
    left
    exact ⟨rfl, by simp⟩
  | cons x xs ih =>
    intro i bi bv
    rw [argmaxAux]
    by_cases hx : bv < x
    · rw [if_pos hx]
      rcases ih (i + 1) i x with ⟨heq, hall⟩ | ⟨k, hk, heq, hgt, hmax, hfirst⟩
      · right
        refine ⟨0, by simp, by simpa using heq, by simpa using hx, ?_, by omega⟩
        intro j hj
        match j with
        | 0 => simp
        | j + 1 =>
          simp only [List.getD_cons_succ, List.getD_cons_zero]
          exact hall j (by simpa using hj)
      · right
        refine ⟨k + 1, by simpa using Nat.succ_lt_succ hk, ?_, ?_, ?_, ?_⟩
        · rw [heq]; omega
        · simpa using lt_trans hx hgt
        · intro j hj
          match j with
          | 0 =>
            simp only [List.getD_cons_succ, List.getD_cons_zero]
            exact le_of_lt hgt
          | j + 1 =>
            simp only [List.getD_cons_succ]
            exact hmax j (by simpa using hj)
        · intro j hj
          match j with
          | 0 =>
            simp only [List.getD_cons_succ, List.getD_cons_zero]
            exact hgt
          | j + 1 =>
            simp only [List.getD_cons_succ]
            exact hfirst j (by omega)
    · rw [if_neg hx]
      rcases ih (i + 1) bi bv with ⟨heq, hall⟩ | ⟨k, hk, heq, hgt, hmax, hfirst⟩
      · left
        refine ⟨heq, ?_⟩
        intro j hj
        match j with
        | 0 => simpa using not_lt.mp hx
        | j + 1 =>
          simp only [List.getD_cons_succ]
          exact hall j (by simpa using hj)
      · right
        refine ⟨k + 1, by simpa using Nat.succ_lt_succ hk, ?_, ?_, ?_, ?_⟩
        · rw [heq]; omega
        · simpa using hgt
        · intro j hj
          match j with
          | 0 =>
            simp only [List.getD_cons_succ, List.getD_cons_zero]
            exact le_of_lt (lt_of_le_of_lt (not_lt.mp hx) hgt)
          | j + 1 =>
            simp only [List.getD_cons_succ]
            exact hmax j (by simpa using hj)
        · intro j hj
          match j with
          | 0 =>
            simp only [List.getD_cons_succ, List.getD_cons_zero]
            exact lt_of_le_of_lt (not_lt.mp hx) hgt
          | j + 1 =>
            simp only [List.getD_cons_succ]
            exact hfirst j (by omega)

theorem argmaxIdx_spec (l : List ℚ) (h : l ≠ []) :
    argmaxIdx l < l.length
    ∧ (∀ j, j < l.length → l.getD j 0 ≤ l.getD (argmaxIdx l) 0)
    ∧ (∀ j, j < argmaxIdx l → l.getD j 0 < l.getD (argmaxIdx l) 0) := by
  match l with
  | x :: xs =>
    rw [argmaxIdx]
    rcases argmaxAux_spec xs 1 0 x with ⟨heq, hall⟩ | ⟨k, hk, heq, hgt, hmax, hfirst⟩
    · rw [heq]
      refine ⟨by simp, ?_, by omega⟩
      intro j hj
      match j with
      | 0 => simp
      | j + 1 =>
        simp only [List.getD_cons_succ, List.getD_cons_zero]
        exact hall j (by simpa using hj)
    · rw [heq]
      have h1k : 1 + k = k + 1 := by omega
      rw [h1k]
      refine ⟨by simpa using Nat.succ_lt_succ hk, ?_, ?_⟩
      · intro j hj
        match j with
        | 0 =>
          simp only [List.getD_cons_succ, List.getD_cons_zero]
          exact le_of_lt hgt
        | j + 1 =>
          simp only [List.getD_cons_succ]
          exact hmax j (by simpa using hj)
      · intro j hj
        match j with
        | 0 =>
          simp only [List.getD_cons_succ, List.getD_cons_zero]
          exact hgt
        | j + 1 =>
          simp only [List.getD_cons_succ]
          exact hfirst j (by omega)

/-- C8: `SimilarityMatcher.best_match` returns the profile achieving the
maximal similarity score across every row, with ties broken by the lowest
index (a strictly greater score at every smaller index is impossible), and
an empty profile list yields the no-match result `(None, -1.0)` instead of
an exception. -/
theorem bestMatch_spec (users : List UserProfileFR) (q : List ℚ) :
    (users = [] → SimilarityMatcher.best_match users q = (none, -1))
    ∧ (users ≠ [] →
      argmaxIdx (simsOf users q) < users.length
      ∧ SimilarityMatcher.best_match users q
          = (some (users.getD (argmaxIdx (simsOf users q))
                { user_id := 0, face_encoding := [] }),
             (simsOf users q).getD (argmaxIdx (simsOf users q)) 0)
      ∧ (∀ j, j < users.length →
          (simsOf users q).getD j 0
            ≤ (simsOf users q).getD (argmaxIdx (simsOf users q)) 0)
      ∧ (∀ j, j < argmaxIdx (simsOf users q) →
          (simsOf users q).getD j 0
            < (simsOf users q).getD (argmaxIdx (simsOf users q)) 0)) := by
  constructor
  · intro h
    subst h
    rfl
  · intro h
    have hlen : (simsOf users q).length = users.length := by
      simp [simsOf]
    have hne : simsOf users q ≠ [] := by
      simpa [simsOf, List.map_eq_nil_iff] using h
    obtain ⟨hlt, hmax, hfirst⟩ := argmaxIdx_spec (simsOf users q) hne
    rw [hlen] at hlt
    refine ⟨hlt, ?_, fun j hj => hmax j (by omega), hfirst⟩
    · match users with
      | u :: us =>
        rw [SimilarityMatcher.best_match]
        rfl

/-- Witness for C8 at a concrete tie: two profiles with equal similarity 1
to the query; the first (lowest-index) profile is returned, and the empty
list gives `(None, -1.0)`. -/
theorem bestMatch_spec_witness :
    ([{ user_id := 1, face_encoding := [(1 : ℚ)] },
      { user_id := 2, face_encoding := [(1 : ℚ)] }] : List UserProfileFR) ≠ []
    ∧ SimilarityMatcher.best_match
        [{ user_id := 1, face_encoding := [(1 : ℚ)] },
         { user_id := 2, face_encoding := [(1 : ℚ)] }] [(1 : ℚ)]
      = (some { user_id := 1, face_encoding := [(1 : ℚ)] }, 1)
    ∧ SimilarityMatcher.best_match ([] : List UserProfileFR) [(1 : ℚ)]
      = (none, -1) := by
  have h2 := (bestMatch_spec
    [{ user_id := 1, face_encoding := [(1 : ℚ)] },
     { user_id := 2, face_encoding := [(1 : ℚ)] }] [(1 : ℚ)]).2 (by simp)
  have h0 := (bestMatch_spec ([] : List UserProfileFR) [(1 : ℚ)]).1 rfl
  refine ⟨by simp, ?_, h0⟩
  rw [h2.2.1]
  norm_num [simsOf, dot, argmaxIdx, argmaxAux]

theorem length_pushCap {α : Type} (cap : Nat) (buf : List α) (x : α) :
    (pushCap cap buf x).length = min (buf.length + 1) cap := by
  simp [pushCap]
  omega

theorem find_best_match_buf_le (cfg : UMConfig) (buf : List (Nat × ℚ))
    (frame : Option (Option Nat × ℚ))
    (h : buf.length ≤ cfg.min_consistent_frames) :
    (find_best_match cfg buf frame).2.length ≤ cfg.min_consistent_frames := by
  match frame with
  | none => simpa [find_best_match] using h
  | some (none, dist) =>
    rw [find_best_match]
    split <;> simp [h]
  | some (some uid, dist) =>
    rw [find_best_match]
    split
    · split <;> simp [h]
    · split
      · dsimp only
        have hb : (pushCap cfg.min_consistent_frames buf (uid, dist)).length
            ≤ cfg.min_consistent_frames := by
          rw [length_pushCap]
          omega
        repeat' split
        all_goals exact hb
      · simpa using h

theorem foldl_matches_le (cfg : UMConfig) :
    ∀ (frames : List (Option (Option Nat × ℚ))) (buf : List (Nat × ℚ)),
    buf.length ≤ cfg.min_consistent_frames →
    (frames.foldl (fun b f => (find_best_match cfg b f).2) buf).length
      ≤ cfg.min_consistent_frames := by
  intro frames
  induction frames with
  | nil => intro buf h; simpa using h
  | cons f fs ih =>
    intro buf h
    exact ih _ (find_best_match_buf_le cfg buf f h)

theorem find_best_match_mfv_false (cfg : UMConfig) (buf : List (Nat × ℚ))
    (frame : Option (Option Nat × ℚ))
    (h : cfg.multi_frame_validation = false) :
    (find_best_match cfg buf frame).2 = buf := by
  match frame with
  | none => rfl
  | some (none, dist) => simp [find_best_match, h]
  | some (some uid, dist) =>
    rw [find_best_match]
    split
    · simp [h]
    · simp [h]

theorem runMatches_mfv_false (cfg : UMConfig)
    (frames : List (Option (Option Nat × ℚ)))
    (h : cfg.multi_frame_validation = false) :
    runMatches cfg frames = [] := by
  rw [runMatches]
  induction frames with
  | nil => rfl
  | cons f fs ih =>
    rw [List.foldl_cons, find_best_match_mfv_false cfg [] f h]
    exact ih

/-- C4: after any sequence of `find_best_match` calls the
`_recent_matches` buffer never holds more than `min_consistent_frames`
entries, and one further call on a frame whose best match is rejected (no
candidate, or distance at or above `recognition_threshold`) leaves the
buffer empty, whatever it held before. -/
theorem consensusBuffer_capacity_clear (cfg : UMConfig)
    (frames : List (Option (Option Nat × ℚ))) (cand : Option Nat) (dist : ℚ)
    (hrej : cand = none ∨ cfg.recognition_threshold ≤ dist) :
    (runMatches cfg frames).length ≤ cfg.min_consistent_frames
    ∧ (find_best_match cfg (runMatches cfg frames) (some (cand, dist))).2 = [] := by
  refine ⟨foldl_matches_le cfg frames [] (by simp), ?_⟩
  by_cases hm : cfg.multi_frame_validation
  · match cand with
    | none => simp [find_best_match, hm]
    | some uid =>
      rcases hrej with h | h
      · exact absurd h (by simp)
      · rw [find_best_match, if_pos h, hm]
        simp
  · rw [runMatches_mfv_false cfg frames (Bool.not_eq_true _ ▸ hm)]
    match cand with
    | none => simp [find_best_match]
    | some uid =>
      rcases hrej with h | h
      · exact absurd h (by simp)
      · rw [find_best_match, if_pos h]
        split <;> rfl

/-- Witness for C4 at concrete inputs: capacity 3, one accepted frame in
history, then a frame at distance 0.9 at or above threshold 0.5 clears the
buffer. -/
theorem consensusBuffer_capacity_clear_witness :
    ((some 3 : Option Nat) = none ∨
      ({ recognition_threshold := 1/2, multi_frame_validation := true,
         min_consistent_frames := 3 } : UMConfig).recognition_threshold ≤ 9/10)
    ∧ (runMatches
        { recognition_threshold := 1/2, multi_frame_validation := true,
          min_consistent_frames := 3 } [some (some 3, 2/5)]).length ≤ 3
    ∧ (find_best_match
        { recognition_threshold := 1/2, multi_frame_validation := true,
          min_consistent_frames := 3 }
        (runMatches
          { recognition_threshold := 1/2, multi_frame_validation := true,
            min_consistent_frames := 3 } [some (some 3, 2/5)])
        (some (some 3, 9/10))).2 = [] := by
  have h := consensusBuffer_capacity_clear
    { recognition_threshold := 1/2, multi_frame_validation := true,
      min_consistent_frames := 3 } [some (some 3, 2/5)] (some 3) (9/10)
    (Or.inr (by norm_num))
  exact ⟨Or.inr (by norm_num), h.1, h.2⟩

/-- C3: under multi-frame validation, a per-frame best match that survived
the rejection test is returned as the active identity exactly when the
updated consensus buffer is at full capacity `min_consistent_frames`, the
most common candidate id in it is the current frame's candidate, and that
id accounts for at least 60% of the capacity; in every other case the call
returns no identity, and no other id is ever returned. -/
theorem findBestMatch_consensus (cfg : UMConfig) (buf : List (Nat × ℚ))
    (uid : Nat) (dist : ℚ)
    (hmfv : cfg.multi_frame_validation = true)
    (hn : 0 < cfg.min_consistent_frames)
    (hdist : dist < cfg.recognition_threshold) :
    ((find_best_match cfg buf (some (some uid, dist))).1 = some uid ↔
      ((pushCap cfg.min_consistent_frames buf (uid, dist)).length
          = cfg.min_consistent_frames
        ∧ mostCommon ((pushCap cfg.min_consistent_frames buf (uid, dist)).map
            Prod.fst) = some uid
        ∧ ((cfg.min_consistent_frames : ℚ) * (3/5)
            ≤ (((pushCap cfg.min_consistent_frames buf (uid, dist)).map
                Prod.fst).count uid : ℚ))))
    ∧ ((find_best_match cfg buf (some (some uid, dist))).1 = some uid
        ∨ (find_best_match cfg buf (some (some uid, dist))).1 = none) := by
  rw [find_best_match, if_neg (not_le.mpr hdist), if_pos hmfv]
  dsimp only
  have hcap : (pushCap cfg.min_consistent_frames buf (uid, dist)).length
      ≤ cfg.min_consistent_frames := by
    rw [length_pushCap]
    omega
  by_cases hfull : (pushCap cfg.min_consistent_frames buf (uid, dist)).length
      < cfg.min_consistent_frames
  · rw [if_pos hfull]
    simp only [reduceCtorEq, false_iff, not_and, or_true, and_true]
    intro hlen
    omega
  · rw [if_neg hfull]
    have hlen : (pushCap cfg.min_consistent_frames buf (uid, dist)).length
        = cfg.min_consistent_frames := by omega
    have hne : (pushCap cfg.min_consistent_frames buf (uid, dist)).map Prod.fst
        ≠ [] := by
      simp only [ne_eq, List.map_eq_nil_iff]
      intro h0
      rw [h0] at hlen
      simp at hlen
      omega
    have hargne : mostCommon ((pushCap cfg.min_consistent_frames buf
        (uid, dist)).map Prod.fst) ≠ none := by
      rw [mostCommon, ne_eq, List.argmax_eq_none]
      exact hne
    obtain ⟨mc, hmc⟩ := Option.ne_none_iff_exists.mp hargne
    rw [← hmc]
    dsimp only
    by_cases hcnt : ((((pushCap cfg.min_consistent_frames buf (uid, dist)).map
        Prod.fst).count mc : ℚ) < (cfg.min_consistent_frames : ℚ) * (3/5))
    · rw [if_pos hcnt]
      refine ⟨⟨fun hcontra => ?_, ?_⟩, Or.inr rfl⟩
      · simp at hcontra
      · rintro ⟨_, hmceq, hge⟩
        have hmu : mc = uid := Option.some_injective _ hmceq
        subst hmu
        exact absurd hge (not_le.mpr hcnt)
    · rw [if_neg hcnt]
      by_cases hmcuid : mc = uid
      · subst hmcuid
        simp only [ne_eq, not_true_eq_false, if_false]
        exact ⟨⟨fun _ => ⟨hlen, trivial, not_lt.mp hcnt⟩, fun _ => trivial⟩,
          Or.inl trivial⟩
      · rw [if_pos hmcuid]
        refine ⟨⟨fun hcontra => ?_, ?_⟩, Or.inr rfl⟩
        · simp at hcontra
        · rintro ⟨_, hmceq, _⟩
          exact absurd (Option.some_injective _ hmceq) hmcuid

/-- Witness for C3 at concrete inputs: capacity 3, two prior consistent
entries for user 7, a third matching frame fills the buffer with a 100%
majority and user 7 is accepted. -/
theorem findBestMatch_consensus_witness :
    ({ recognition_threshold := 1/2, multi_frame_validation := true,
       min_consistent_frames := 3 } : UMConfig).multi_frame_validation = true
    ∧ (0:ℚ) < 1 ∧
    (find_best_match
      { recognition_threshold := 1/2, multi_frame_validation := true,
        min_consistent_frames := 3 }
      [(7, 2/5), (7, 2/5)] (some (some 7, 2/5))).1 = some 7 := by
  have h := findBestMatch_consensus
    { recognition_threshold := 1/2, multi_frame_validation := true,
      min_consistent_frames := 3 }
    [(7, 2/5), (7, 2/5)] 7 (2/5) rfl (by norm_num) (by norm_num)
  refine ⟨rfl, by norm_num, ?_⟩
  apply h.1.mpr
  refine ⟨by simp [pushCap], ?_, ?_⟩
  · simp [pushCap, mostCommon]
    rfl
  · simp [pushCap]
    norm_num

theorem eyeClosure_counter_spec_witness :
    (11/50 : ℚ) ≤ 3/10 ∧ drowsyStep (11/50) { counter := 7, drowsy := true } (3/10) = drowsyInit := by
  refine ⟨by norm_num, ?_⟩
  exact (eyeClosure_counter_spec (11/50) [] { counter := 7, drowsy := true } (3/10)).2.1 (by norm_num)

/-- C10: for any nonnegative distance function (modelling `math.dist`) and
any landmark list of at least six points, `EAR.calculate` and
`MAR.calculate` return 0.0 when the horizontal corner distance (between
points 0 and 3) is below 1e-6; otherwise they divide by `2c` with
`c ≥ 1e-6`, and in every case the result is a nonnegative (finite)
value. -/
theorem aspect_calculate_safe (d : Point → Point → ℚ)
    (landmarks : List Point) (hd : ∀ p q : Point, 0 ≤ d p q)
    (hlen : 6 ≤ landmarks.length) :
    (0 ≤ EAR.calculate d landmarks
      ∧ (d (landmarks.getD 0 (0, 0)) (landmarks.getD 3 (0, 0)) < 1/1000000 →
          EAR.calculate d landmarks = 0)
      ∧ (¬ d (landmarks.getD 0 (0, 0)) (landmarks.getD 3 (0, 0)) < 1/1000000 →
          1/1000000 ≤ d (landmarks.getD 0 (0, 0)) (landmarks.getD 3 (0, 0))
          ∧ EAR.calculate d landmarks
            = (d (landmarks.getD 1 (0, 0)) (landmarks.getD 5 (0, 0))
                + d (landmarks.getD 2 (0, 0)) (landmarks.getD 4 (0, 0)))
              / (2 * d (landmarks.getD 0 (0, 0)) (landmarks.getD 3 (0, 0)))))
    ∧ (0 ≤ MAR.calculate d landmarks
      ∧ (d (landmarks.getD 0 (0, 0)) (landmarks.getD 3 (0, 0)) < 1/1000000 →
          MAR.calculate d landmarks = 0)
      ∧ (¬ d (landmarks.getD 0 (0, 0)) (landmarks.getD 3 (0, 0)) < 1/1000000 →
          1/1000000 ≤ d (landmarks.getD 0 (0, 0)) (landmarks.getD 3 (0, 0))
          ∧ MAR.calculate d landmarks
            = (d (landmarks.getD 1 (0, 0)) (landmarks.getD 5 (0, 0))
                + d (landmarks.getD 2 (0, 0)) (landmarks.getD 4 (0, 0)))
              / (2 * d (landmarks.getD 0 (0, 0)) (landmarks.getD 3 (0, 0))))) := by
  constructor
  · refine ⟨?_, fun h => ?_, fun h => ⟨not_lt.mp h, ?_⟩⟩
    · rw [EAR.calculate]
      split
      · exact le_refl 0
      · next hc =>
        have hc2 : (0:ℚ) < 2 * d (landmarks.getD 0 (0, 0)) (landmarks.getD 3 (0, 0)) := by
          have := not_lt.mp hc
          linarith
        exact div_nonneg (add_nonneg (hd _ _) (hd _ _)) (le_of_lt hc2)
    · rw [EAR.calculate]
      rw [if_pos h]
    · rw [EAR.calculate]
      rw [if_neg h]
  · refine ⟨?_, fun h => ?_, fun h => ⟨not_lt.mp h, ?_⟩⟩
    · rw [MAR.calculate]
      split
      · exact le_refl 0
      · next hc =>
        have hc2 : (0:ℚ) < 2 * d (landmarks.getD 0 (0, 0)) (landmarks.getD 3 (0, 0)) := by
          have := not_lt.mp hc
          linarith
        exact div_nonneg (add_nonneg (hd _ _) (hd _ _)) (le_of_lt hc2)
    · rw [MAR.calculate]
      rw [if_pos h]
    · rw [MAR.calculate]
      rw [if_neg h]

/-- Witness for C10 at concrete inputs: the taxicab distance (a
nonnegative stand-in for the Euclidean one) on six points with horizontal
corner distance 1: both ratios evaluate to a nonnegative value. -/
theorem aspect_calculate_safe_witness :
    6 ≤ ([((0:ℚ), (0:ℚ)), (0, 1), (0, 1), (1, 0), (0, -1), (0, -1)] : List Point).length
    ∧ 0 ≤ EAR.calculate (fun p q => |p.1 - q.1| + |p.2 - q.2|)
        [((0:ℚ), (0:ℚ)), (0, 1), (0, 1), (1, 0), (0, -1), (0, -1)]
    ∧ 0 ≤ MAR.calculate (fun p q => |p.1 - q.1| + |p.2 - q.2|)
        [((0:ℚ), (0:ℚ)), (0, 1), (0, 1), (1, 0), (0, -1), (0, -1)] := by
  have h := aspect_calculate_safe (fun p q => |p.1 - q.1| + |p.2 - q.2|)
    [((0:ℚ), (0:ℚ)), (0, 1), (0, 1), (1, 0), (0, -1), (0, -1)]
    (fun p q => add_nonneg (abs_nonneg _) (abs_nonneg _)) (by simp)
  exact ⟨by simp, h.1.1, h.2.1⟩

theorem getD_map_neg (l : List ℚ) : ∀ j, j < l.length →
    (l.map (fun x => -x)).getD j 0 = -(l.getD j 0) := by
  induction l with
  | nil => simp
  | cons x xs ih =>
    intro j hj
    match j with
    | 0 => simp
    | j + 1 =>
      simp only [List.map_cons, List.getD_cons_succ]
      exact ih j (by simpa using hj)

theorem getD_map_d (d : List ℚ → List ℚ → ℚ) (enc : List ℚ)
    (l : List UserProfileFR) : ∀ j, j < l.length →
    (l.map (fun v => d enc v.face_encoding)).getD j 0
      = d enc ((l.getD j { user_id := 0, face_encoding := [] }).face_encoding) := by
  induction l with
  | nil => simp
  | cons x xs ih =>
    intro j hj
    match j with
    | 0 => simp
    | j + 1 =>
      simp only [List.map_cons, List.getD_cons_succ]
      exact ih j (by simpa using hj)

theorem argminIdx_spec (l : List ℚ) (h : l ≠ []) :
    argminIdx l < l.length
    ∧ ∀ j, j < l.length → l.getD (argminIdx l) 0 ≤ l.getD j 0 := by
  have hne : l.map (fun x => -x) ≠ [] := by
    simpa [List.map_eq_nil_iff] using h
  obtain ⟨hlt, hmax, _⟩ := argmaxIdx_spec (l.map fun x => -x) hne
  rw [List.length_map] at hlt
  have harg : argminIdx l = argmaxIdx (l.map fun x => -x) := rfl
  refine ⟨harg ▸ hlt, ?_⟩
  intro j hj
  have h1 := hmax j (by simpa using hj)
  rw [getD_map_neg l j hj, getD_map_neg l _ hlt] at h1
  rw [harg]
  linarith

/-- C7: `register_new_user` checks the new (averaged, re-normalized)
encoding against the existing profiles at the duplicate threshold
`0.8 × recognition_threshold`; whenever some profile lies within that
stricter threshold, it returns an existing within-threshold profile and
leaves the profile cache unchanged — no new `UserProfile` is created,
saved or cached. -/
theorem register_duplicate_returns_existing
    (d : List ℚ → List ℚ → ℚ) (recognition_threshold : ℚ)
    (users : List UserProfileFR) (enc : List ℚ) (e : ℚ) (next_id : Nat)
    (hdup : ∃ u ∈ users, d enc u.face_encoding
      < recognition_threshold * (4/5)) :
    ∃ dup, dup ∈ users
      ∧ d enc dup.face_encoding < recognition_threshold * (4/5)
      ∧ register_new_user d recognition_threshold users enc (some e) next_id
          = (some dup, users) := by
  obtain ⟨u, hu_mem, hu_lt⟩ := hdup
  have hne : users ≠ [] := by
    rintro rfl
    simp at hu_mem
  have hdne : users.map (fun v => d enc v.face_encoding) ≠ [] := by
    simpa [List.map_eq_nil_iff] using hne
  obtain ⟨hlt, hminle⟩ :=
    argminIdx_spec (users.map (fun v => d enc v.face_encoding)) hdne
  rw [List.length_map] at hlt
  obtain ⟨j0, hj0, hgetj0⟩ := List.getElem_of_mem hu_mem
  have hj0' : (users.map (fun v => d enc v.face_encoding)).getD j0 0
      = d enc u.face_encoding := by
    rw [getD_map_d d enc users j0 hj0, List.getD_eq_getElem _ _ hj0, hgetj0]
  have hmin_lt : (users.map (fun v => d enc v.face_encoding)).getD
      (argminIdx (users.map (fun v => d enc v.face_encoding))) 0
      < recognition_threshold * (4/5) := by
    refine lt_of_le_of_lt (hminle j0 (by simpa using hj0)) ?_
    rw [hj0']
    exact hu_lt
  have hdup_eq : d enc ((users.getD
      (argminIdx (users.map (fun v => d enc v.face_encoding)))
      { user_id := 0, face_encoding := [] }).face_encoding)
      = (users.map (fun v => d enc v.face_encoding)).getD
          (argminIdx (users.map (fun v => d enc v.face_encoding))) 0 :=
    (getD_map_d d enc users _ hlt).symm
  refine ⟨users.getD (argminIdx (users.map (fun v => d enc v.face_encoding)))
    { user_id := 0, face_encoding := [] }, ?_, ?_, ?_⟩
  · rw [List.getD_eq_getElem _ _ hlt]
    exact List.getElem_mem hlt
  · rw [hdup_eq]
    exact hmin_lt
  · have hbm : (best_match_thresholded d enc users
        (recognition_threshold * (4/5))).1
        = some (users.getD
            (argminIdx (users.map (fun v => d enc v.face_encoding)))
            { user_id := 0, face_encoding := [] }) := by
      obtain ⟨v, vs, rfl⟩ : ∃ v vs, users = v :: vs := by
        match users, hne with
        | v :: vs, _ => exact ⟨v, vs, rfl⟩
      rw [best_match_thresholded]
      try dsimp only
      rw [if_pos hmin_lt]
    rw [register_new_user]
    try dsimp only
    rw [hbm]

/-- Witness for C7 at concrete inputs: one stored profile at distance 0
from the query encoding, threshold 0.5: registration returns that profile
and the cache is unchanged. -/
theorem register_duplicate_returns_existing_witness :
    (∃ u ∈ ([{ user_id := 5, face_encoding := [(1:ℚ)] }] : List UserProfileFR),
      (fun a b => if a = b then (0:ℚ) else 1) [(1:ℚ)] u.face_encoding
        < (1/2) * (4/5))
    ∧ register_new_user (fun a b => if a = b then (0:ℚ) else 1) (1/2)
        [{ user_id := 5, face_encoding := [(1:ℚ)] }] [(1:ℚ)] (some (1/4)) 9
      = (some { user_id := 5, face_encoding := [(1:ℚ)] },
         [{ user_id := 5, face_encoding := [(1:ℚ)] }]) := by
  have hdup : ∃ u ∈ ([{ user_id := 5, face_encoding := [(1:ℚ)] }] :
      List UserProfileFR),
      (fun a b => if a = b then (0:ℚ) else 1) [(1:ℚ)] u.face_encoding
        < (1/2) * (4/5) := by
    refine ⟨{ user_id := 5, face_encoding := [(1:ℚ)] }, by simp, ?_⟩
    norm_num
  obtain ⟨dup, hmem, _, heq⟩ := register_duplicate_returns_existing
    (fun a b => if a = b then (0:ℚ) else 1) (1/2)
    [{ user_id := 5, face_encoding := [(1:ℚ)] }] [(1:ℚ)] (1/4) 9 hdup
  have hd : dup = { user_id := 5, face_encoding := [(1:ℚ)] } := by
    simpa using hmem
  exact ⟨hdup, hd ▸ heq⟩

theorem pushCap_window (cap : Nat) (hcap : 1 ≤ cap) (l : List ℚ) (v : ℚ) :
    pushCap cap (l.drop (l.length - cap)) v
      = (l ++ [v]).drop (l.length + 1 - cap) := by
  have hW : (l.drop (l.length - cap)).length = l.length - (l.length - cap) :=
    List.length_drop _ _
  rw [pushCap, List.drop_append_of_le_length (by omega),
    List.drop_append_of_le_length (by omega), List.drop_drop]
  congr 2
  omega

theorem sum_eq_headD_add_tail (W : List ℚ) (h : W ≠ []) :
    W.sum = W.headD 0 + (W.drop 1).sum := by
  match W, h with
  | w :: W', _ => simp

theorem update_some_eval (cap : Nat) (hcap : 1 ≤ cap) (s : RollingAverage)
    (v : ℚ) (l : List ℚ) (hc : s.capacity = cap)
    (hb : s.buffer = l.drop (l.length - cap))
    (hs : s.current_sum = (l.drop (l.length - cap)).sum) :
    (s.update (some v)).1.capacity = cap
    ∧ (s.update (some v)).1.buffer = (l ++ [v]).drop (l.length + 1 - cap)
    ∧ (s.update (some v)).1.current_sum
        = ((l ++ [v]).drop (l.length + 1 - cap)).sum
    ∧ (s.update (some v)).2
        = ((l ++ [v]).drop (l.length + 1 - cap)).sum
          / (((l ++ [v]).drop (l.length + 1 - cap)).length : ℚ) := by
  have hbuf : pushCap s.capacity s.buffer v
      = (l ++ [v]).drop (l.length + 1 - cap) := by
    rw [hc, hb, pushCap_window cap hcap l v]
  have hsum : (if s.buffer.length = s.capacity
        then s.current_sum - s.buffer.headD 0 else s.current_sum) + v
      = ((l ++ [v]).drop (l.length + 1 - cap)).sum := by
    rw [← hbuf, hc, hb, hs, pushCap]
    have hW : (l.drop (l.length - cap)).length = l.length - (l.length - cap) :=
      List.length_drop _ _
    by_cases hfull : cap ≤ l.length
    · have hWlen : (l.drop (l.length - cap)).length = cap := by omega
      rw [if_pos hWlen, hWlen]
      have h1 : cap + 1 - cap = 1 := by omega
      rw [h1, List.drop_append_of_le_length (by omega)]
      have hWne : l.drop (l.length - cap) ≠ [] := by
        intro h0
        rw [h0] at hWlen
        simp at hWlen
        omega
      rw [List.sum_append,
        sum_eq_headD_add_tail (l.drop (l.length - cap)) hWne]
      simp
    · have hWeq : l.length - cap = 0 := by omega
      rw [hWeq, List.drop_zero] at *
      rw [if_neg (by omega : ¬ l.length = cap)]
      have h0 : l.length + 1 - cap = 0 := by omega
      rw [h0, List.drop_zero, List.sum_append]
      simp
  rw [RollingAverage.update]
  try dsimp only
  refine ⟨by simp [hc], by simpa using hbuf, by simpa using hsum, ?_⟩
  rw [hbuf, hsum]

theorem runRolling_state (cap : Nat) (hcap : 1 ≤ cap) (l : List ℚ) :
    (runRolling cap l).capacity = cap
    ∧ (runRolling cap l).buffer = l.drop (l.length - cap)
    ∧ (runRolling cap l).current_sum = (l.drop (l.length - cap)).sum := by
  induction l using List.reverseRecOn with
  | nil =>
    refine ⟨rfl, by simp [runRolling, RollingAverage.init],
      by simp [runRolling, RollingAverage.init]⟩
  | append_singleton l v ih =>
    obtain ⟨hc, hb, hs⟩ := ih
    have hrun : runRolling cap (l ++ [v])
        = ((runRolling cap l).update (some v)).1 := by
      simp [runRolling, List.foldl_append]
    obtain ⟨e1, e2, e3, _⟩ := update_some_eval cap hcap (runRolling cap l) v l hc hb hs
    rw [hrun]
    refine ⟨e1, ?_, ?_⟩
    · rw [e2]
      simp
    · rw [e3]
      simp

/-- C9: after any sequence of non-`None` inputs, the next `update` with a
value returns exactly the arithmetic mean of the most recent
`min(k, capacity)` inputs — the O(1) running-sum implementation agrees
extensionally with recomputing the mean of the window contents — and an
`update` with `None` leaves the state unchanged and returns the current
average. -/
theorem rollingAverage_mean (cap : Nat) (l : List ℚ) (v : ℚ)
    (s : RollingAverage) (hcap : 1 ≤ cap) :
    ((runRolling cap l).update (some v)).2
      = ((l ++ [v]).drop ((l ++ [v]).length - cap)).sum
        / (((l ++ [v]).drop ((l ++ [v]).length - cap)).length : ℚ)
    ∧ ((runRolling cap l).update (some v)).1.buffer
        = (l ++ [v]).drop ((l ++ [v]).length - cap)
    ∧ (s.update none).1 = s
    ∧ (s.update none).2 = s.get_average := by
  obtain ⟨hc, hb, hs⟩ := runRolling_state cap hcap l
  obtain ⟨_, e2, _, e4⟩ := update_some_eval cap hcap (runRolling cap l) v l hc hb hs
  have hlen : (l ++ [v]).length - cap = l.length + 1 - cap := by
    simp
  rw [hlen]
  exact ⟨e4, e2, rfl, rfl⟩

/-- Witness for C9 at concrete inputs: capacity 2 with inputs 1, 2, 3: the
final update returns the mean of the last two inputs, (2 + 3)/2, and a
`None` update leaves a state unchanged. -/
theorem rollingAverage_mean_witness :
    1 ≤ 2
    ∧ ((runRolling 2 [1, 2]).update (some 3)).2 = 5/2
    ∧ (({ capacity := 2, buffer := [(1:ℚ)], current_sum := 1 }
        : RollingAverage).update none).1
      = { capacity := 2, buffer := [(1:ℚ)], current_sum := 1 } := by
  have h := rollingAverage_mean 2 [1, 2] 3
    { capacity := 2, buffer := [(1:ℚ)], current_sum := 1 } (by norm_num)
  refine ⟨by norm_num, ?_, h.2.2.1⟩
  rw [h.1]
  norm_num

/-- C5 counterexample: on `distractionTrace` the vote becomes stable at
t = 1 (timer start); the stable episode never reaches
`TIME_THRESH = 2.5` s; two invalid-pose frames then push false votes and
drop the vote count to 2 — stability is lost — yet `start_time = 1` and
the confirmed flag survive, because the reset branch only runs on
valid-pose frames; the next bad-angle frame at t = 4 is stable again and
returns `should_log = true` although its own uninterrupted stable run has
elapsed time 0 ≤ `TIME_THRESH`.  This falsifies both "any frame on which
stability is lost resets the timer and the confirmed flag" and "an
episode whose stable time never exceeds TIME_THRESH produces no loggable
event". -/
theorem distraction_invalid_gap_cex :
    (runAnalyze distractionInit distractionTrace).history.count true = 2
    ∧ (runAnalyze distractionInit distractionTrace).start_time = some 1
    ∧ (runAnalyze distractionInit distractionTrace).is_distracted = false
    ∧ (analyze 0 0 0 (runAnalyze distractionInit distractionTrace)
        0 50 0 false 4).2.2 = true := by
  refine ⟨?_, ?_, ?_, ?_⟩ <;>
    norm_num [runAnalyze, distractionTrace, analyze, distractionInit,
      is_valid_pose, is_bad_angle, pushCap, YAW_THRESH, PITCH_DOWN_THRESH,
      PITCH_UP_THRESH, ROLL_THRESH, TIME_THRESH, STABILIZATION_FRAMES,
      List.count_cons]

/-- C5 amended: the bad-angle vote is pushed into the 5-frame rolling
buffer on every frame (a false vote on invalid-pose frames), and
distraction is stable exactly when at least 3 of the buffered votes are
true; a VALID-pose frame on which stability fails resets the timer and the
confirmed flag, but an invalid-pose frame leaves both untouched even if
its false vote breaks stability; on a stable frame the timer keeps its
recorded start (starting now if unset) and `should_log` is true exactly
when the elapsed time since that recorded start exceeds `TIME_THRESH`
while the confirmed flag was not yet set — so an episode that inherits a
timer across an invalid-pose gap can log before its own stable run
reaches `TIME_THRESH`. -/
theorem distraction_vote_timer_spec (ep ey er : ℚ) (s : DistractionState)
    (pitch yaw roll : ℚ) (phone : Bool) (now : ℚ) :
    (is_valid_pose pitch yaw roll = false →
      analyze ep ey er s pitch yaw roll phone now
        = ({ s with history := pushCap STABILIZATION_FRAMES s.history false },
           false, false))
    ∧ (is_valid_pose pitch yaw roll = true →
      ((pushCap STABILIZATION_FRAMES s.history
          (is_bad_angle ep ey er pitch yaw roll phone)).count true < 3 →
        analyze ep ey er s pitch yaw roll phone now
          = ({ history := pushCap STABILIZATION_FRAMES s.history
                (is_bad_angle ep ey er pitch yaw roll phone),
               start_time := none, is_distracted := false }, false, false))
      ∧ (3 ≤ (pushCap STABILIZATION_FRAMES s.history
          (is_bad_angle ep ey er pitch yaw roll phone)).count true →
        (analyze ep ey er s pitch yaw roll phone now).1.start_time
            = some (s.start_time.getD now)
        ∧ (analyze ep ey er s pitch yaw roll phone now).2.1 = true
        ∧ ((analyze ep ey er s pitch yaw roll phone now).2.2 = true ↔
            (s.is_distracted = false
              ∧ TIME_THRESH < now - s.start_time.getD now))
        ∧ (analyze ep ey er s pitch yaw roll phone now).1.is_distracted
            = (s.is_distracted
                || decide (TIME_THRESH < now - s.start_time.getD now)))) := by
  refine ⟨fun hval => ?_, fun hval => ⟨fun hns => ?_, fun hst => ?_⟩⟩
  · rw [analyze]
    simp [hval]
  · rw [analyze]
    simp only [hval, Bool.not_true, Bool.false_eq_true, if_false]
    rw [if_neg (by omega)]
  · rw [analyze]
    simp only [hval, Bool.not_true, Bool.false_eq_true, if_false]
    rw [if_pos hst]
    by_cases hTT : TIME_THRESH < now - s.start_time.getD now
    · rw [if_pos hTT]
      by_cases hd : s.is_distracted
      · simp [hd, hTT]
      · simp only [Bool.not_eq_true] at hd
        simp [hd, hTT]
    · rw [if_neg hTT]
      simp [hTT]

/-- Witness for C5 amended at concrete inputs: two true votes in history,
timer started at t = 0, a valid bad-yaw frame at t = 3 makes 3-of-3 votes,
elapsed 3 > 2.5 and the flag unset, so `should_log` is true. -/
theorem distraction_vote_timer_spec_witness :
    is_valid_pose 0 50 0 = true
    ∧ 3 ≤ (pushCap STABILIZATION_FRAMES [true, true]
        (is_bad_angle 0 0 0 0 50 0 false)).count true
    ∧ (analyze 0 0 0
        { history := [true, true], start_time := some 0, is_distracted := false }
        0 50 0 false 3).2.2 = true := by
  have hval : is_valid_pose 0 50 0 = true := by
    norm_num [is_valid_pose]
  have hst : 3 ≤ (pushCap STABILIZATION_FRAMES [true, true]
      (is_bad_angle 0 0 0 0 50 0 false)).count true := by
    norm_num [pushCap, STABILIZATION_FRAMES, is_bad_angle, YAW_THRESH,
      PITCH_DOWN_THRESH, PITCH_UP_THRESH, ROLL_THRESH, List.count_cons]
  have h := ((distraction_vote_timer_spec 0 0 0
    { history := [true, true], start_time := some 0, is_distracted := false }
    0 50 0 false 3).2 hval).2 hst
  refine ⟨hval, hst, ?_⟩
  exact h.2.2.1.mpr ⟨rfl, by norm_num [TIME_THRESH]⟩

/-- C6: a calibration session that ends with the collection window elapsed
and at least `MIN_VALID_SAMPLES` valid in-bounds samples derives the
threshold `mean(samples) × DROWSINESS_FACTOR`; otherwise it derives
nothing; and the embedded session is a pure function of its inputs, so
feeding the same sample sequence twice yields the same threshold. -/
theorem calibration_threshold_mean (elapsed : ℚ) (frames : List (Option ℚ)) :
    (CALIBRATION_DURATION_S ≤ elapsed
        ∧ MIN_VALID_SAMPLES ≤ (validSamples frames).length →
      runCalibration elapsed frames
        = some (((validSamples frames).sum / ((validSamples frames).length : ℚ))
            * DROWSINESS_FACTOR))
    ∧ (¬(CALIBRATION_DURATION_S ≤ elapsed
        ∧ MIN_VALID_SAMPLES ≤ (validSamples frames).length) →
      runCalibration elapsed frames = none)
    ∧ runCalibration elapsed frames = runCalibration elapsed frames := by
  refine ⟨fun h => ?_, fun h => ?_, rfl⟩
  · rw [runCalibration, calibrationResult, if_pos h]
  · rw [runCalibration, calibrationResult, if_neg h]

theorem validSamples_replicate (n : Nat) (x : ℚ)
    (hx : EAR_BOUNDS_LO ≤ x ∧ x ≤ EAR_BOUNDS_HI) :
    validSamples (List.replicate n (some x)) = List.replicate n x := by
  induction n with
  | zero => rfl
  | succ n ih =>
    rw [List.replicate_succ, List.replicate_succ, validSamples,
      List.filterMap_cons]
    dsimp only
    rw [if_pos hx, ← validSamples, ih]

/-- Witness for C6 at concrete inputs: 20 frames of EAR 0.25 over a full
10-second window succeed with threshold 0.25 × 0.8 = 0.2. -/
theorem calibration_threshold_mean_witness :
    (CALIBRATION_DURATION_S ≤ 10
      ∧ MIN_VALID_SAMPLES ≤ (validSamples (List.replicate 20 (some (1/4)))).length)
    ∧ runCalibration 10 (List.replicate 20 (some (1/4))) = some (1/5) := by
  have hcond : CALIBRATION_DURATION_S ≤ 10
      ∧ MIN_VALID_SAMPLES ≤ (validSamples (List.replicate 20 (some (1/4)))).length := by
    have hin : EAR_BOUNDS_LO ≤ (1:ℚ)/4 ∧ (1:ℚ)/4 ≤ EAR_BOUNDS_HI := by
      norm_num [EAR_BOUNDS_LO, EAR_BOUNDS_HI]
    constructor
    · norm_num [CALIBRATION_DURATION_S]
    · rw [validSamples_replicate 20 (1/4) hin]
      simp [MIN_VALID_SAMPLES]
  have h := (calibration_threshold_mean 10 (List.replicate 20 (some (1/4)))).1 hcond
  refine ⟨hcond, ?_⟩
  rw [h]
  have hin : EAR_BOUNDS_LO ≤ (1:ℚ)/4 ∧ (1:ℚ)/4 ≤ EAR_BOUNDS_HI := by
    norm_num [EAR_BOUNDS_LO, EAR_BOUNDS_HI]
  rw [validSamples_replicate 20 (1/4) hin]
  norm_num [DROWSINESS_FACTOR, List.sum_replicate]

end DriverStatus
